import Mathlib

/-!
Verification of the FWHM chart renderer and UI update logic of the Astro
repository (`src/WebUI/static/js/astro_tool.js` and
`src/WebGUI/assets/js/app.js`).

The JavaScript functions are shallowly embedded as pure Lean functions:

* numbers are modelled as exact rationals `ℚ` (the JS engine uses binary64
  floats; every claim settled here depends only on arithmetic facts that are
  exact in binary64 as well, e.g. `0 * 0.1 = 0` and `x - x = 0`);
* the 2D canvas context is modelled as a trace of drawing operations
  (`DrawOp`); `drawChart` produces the exact sequence of context calls the
  source makes;
* note that Lean's `ℚ` totalises division with `q / 0 = 0`, whereas
  JavaScript produces `NaN` (for `0 / 0`) or `±Infinity`.  Wherever a zero
  denominator matters we therefore reason about the numerator
  (`normNum`) and denominator (`normDenom`) of the normalisation
  explicitly rather than about the totalised quotient;
* the DOM mutations of `updateFwhmData` are modelled as a transition
  function on an explicit `UiState` record;
* `populateDropdown` is modelled on the list of `<option>` elements of the
  select node.
-/

/-- One 2D-canvas context call, as issued by `drawChart`. -/
inductive DrawOp where
  | setFillStyle (c : String)
  | fillRect (x y rw rh : ℚ)
  | setFont (f : String)
  | setTextAlign (a : String)
  | fillText (s : String) (x y : ℚ)
  | setStrokeStyle (c : String)
  | setLineWidth (lw : ℚ)
  | beginPath
  | moveTo (x y : ℚ)
  | lineTo (x y : ℚ)
  | stroke
  deriving DecidableEq

/-- `Math.min(...xs)` for a nonempty spread: fold of binary `min` over the
values.  (On the paths we verify the list is always nonempty; the `[]` case
is given the dummy value `0`.) -/
def listMin : List ℚ → ℚ
  | [] => 0
  | x :: xs => xs.foldl min x

/-- `Math.max(...xs)` for a nonempty spread. -/
def listMax : List ℚ → ℚ
  | [] => 0
  | x :: xs => xs.foldl max x

/-- `const range = maxFwhm - minFwhm` in `drawChart`. -/
def chartRange (samples : List ℚ) : ℚ := listMax samples - listMin samples

/-- `const padding = range * 0.1` in `drawChart`. -/
def chartPadding (samples : List ℚ) : ℚ := chartRange samples * (1 / 10)

/-- Numerator of `normalizedFwhm`: `fwhm - minFwhm + padding`. -/
def normNum (samples : List ℚ) (fwhm : ℚ) : ℚ :=
  fwhm - listMin samples + chartPadding samples

/-- Denominator of `normalizedFwhm`: `range + 2 * padding`. -/
def normDenom (samples : List ℚ) : ℚ :=
  chartRange samples + 2 * chartPadding samples

/-- The point `(x, y)` plotted for the sample `x.2` at 0-based index `x.1`:
`x = (index / (fwhmHistory.length - 1)) * width` and
`y = height - (normalizedFwhm * (height - 20)) - 10`. -/
def plotPoint (samples : List ℚ) (width height : ℚ) (x : ℕ × ℚ) : ℚ × ℚ :=
  ((x.1 : ℚ) / ((samples.length : ℚ) - 1) * width,
   height - normNum samples x.2 / normDenom samples * (height - 20) - 10)

/-- The mapped points of the data polyline, in index order (the body of the
`fwhmHistory.forEach((fwhm, index) => ...)` loop, coordinates only). -/
def chartPoints (samples : List ℚ) (width height : ℚ) : List (ℚ × ℚ) :=
  samples.enum.map (plotPoint samples width height)

/-- The context call made for the point `x.2` at index `x.1`:
`moveTo` at index `0`, `lineTo` at every later index. -/
def polyOpAt (x : ℕ × (ℚ × ℚ)) : DrawOp :=
  if x.1 = 0 then DrawOp.moveTo x.2.1 x.2.2 else DrawOp.lineTo x.2.1 x.2.2

/-- The path-building calls of the `forEach` loop over the mapped points. -/
def polyOps (pts : List (ℚ × ℚ)) : List DrawOp :=
  pts.enum.map polyOpAt

/-- `// Clear canvas`: fill the whole surface with the background colour. -/
def clearOps (width height : ℚ) : List DrawOp :=
  [DrawOp.setFillStyle "#0a0a0a", DrawOp.fillRect 0 0 width height]

/-- The `fwhmHistory.length < 2` branch: centered placeholder text. -/
def placeholderOps (width height : ℚ) : List DrawOp :=
  [DrawOp.setFillStyle "#666", DrawOp.setFont "14px sans-serif",
   DrawOp.setTextAlign "center",
   DrawOp.fillText "No data yet" (width / 2) (height / 2)]

/-- One iteration of the gridline loop: `y = (height / 5) * i`. -/
def gridLine (width height i : ℚ) : List DrawOp :=
  [DrawOp.beginPath, DrawOp.moveTo 0 (height / 5 * i),
   DrawOp.lineTo width (height / 5 * i), DrawOp.stroke]

/-- `// Draw grid`: the loop `for (let i = 1; i < 5; i++)`, unrolled. -/
def gridOps (width height : ℚ) : List DrawOp :=
  [DrawOp.setStrokeStyle "#222", DrawOp.setLineWidth 1] ++
    gridLine width height 1 ++ gridLine width height 2 ++
    gridLine width height 3 ++ gridLine width height 4

/-- `// Draw FWHM line`: style, `beginPath`, the `forEach` loop, `stroke`. -/
def lineOps (samples : List ℚ) (width height : ℚ) : List DrawOp :=
  [DrawOp.setStrokeStyle "#4a9eff", DrawOp.setLineWidth 2, DrawOp.beginPath] ++
    polyOps (chartPoints samples width height) ++ [DrawOp.stroke]

/-- Two-digit zero padding of the fractional part. -/
def pad2 (n : ℕ) : String := if n < 10 then "0" ++ toString n else toString n

/-- `Number.prototype.toFixed(2)`: sign, then the decimal string of the
integer nearest to `|q| * 100` (ties rounded up), with the last two digits
after a decimal point.  Computed on the reduced numerator/denominator so
that the kernel can evaluate it:
`(2 * (num * 100) + den) / (2 * den) = ⌊|q| * 100 + 1/2⌋` for `num/den = |q|`. -/
def toFixed2 (q : ℚ) : String :=
  let sign := if q < 0 then "-" else ""
  let n : ℕ := (2 * (q.num.natAbs * 100) + q.den) / (2 * q.den)
  sign ++ toString (n / 100) ++ "." ++ pad2 (n % 100)

/-- `// Draw labels`: the "Best"/"Worst" annotations. -/
def labelOps (samples : List ℚ) (width height : ℚ) : List DrawOp :=
  [DrawOp.setFillStyle "#4ade80", DrawOp.setFont "12px sans-serif",
   DrawOp.setTextAlign "left",
   DrawOp.fillText ("Best: " ++ toFixed2 (listMin samples)) 5 (height - 5),
   DrawOp.setFillStyle "#ff4a4a", DrawOp.setTextAlign "right",
   DrawOp.fillText ("Worst: " ++ toFixed2 (listMax samples)) (width - 5) 15]

/-- `drawChart`: the full trace of context calls for one invocation, given
the current `fwhmHistory` and the canvas dimensions. -/
def drawChart (samples : List ℚ) (width height : ℚ) : List DrawOp :=
  clearOps width height ++
    (if samples.length < 2 then placeholderOps width height
     else gridOps width height ++ lineOps samples width height ++
       labelOps samples width height)

/-- A path command recorded in the context's current path. -/
inductive PathCmd where
  | move (x y : ℚ)
  | line (x y : ℚ)
  deriving DecidableEq

/-- `p` lies in the axis-aligned rectangle filled by `fillRect x y rw rh`
(the half-open convention is one deterministic choice of rasterisation). -/
def rectContains (x y rw rh : ℚ) (p : ℚ × ℚ) : Prop :=
  x ≤ p.1 ∧ p.1 < x + rw ∧ y ≤ p.2 ∧ p.2 < y + rh

instance (x y rw rh : ℚ) (p : ℚ × ℚ) : Decidable (rectContains x y rw rh p) :=
  by unfold rectContains; infer_instance

/-- An abstract rasteriser: which pixels a `stroke` of a given path and line
width covers, and which pixels a `fillText` of a given string, font, text
alignment and anchor covers.  The idempotence/determinism theorem holds for
every rasteriser, so nothing about antialiasing or font metrics is assumed
beyond being a function of the drawing parameters. -/
structure Raster where
  strokeMask : List PathCmd → ℚ → ℚ × ℚ → Bool
  textMask : String → String → String → ℚ → ℚ → ℚ × ℚ → Bool

/-- The mutable state of a `CanvasRenderingContext2D` together with the
pixel contents of its canvas. -/
structure CanvasState where
  fillStyle : String
  strokeStyle : String
  font : String
  textAlign : String
  lineWidth : ℚ
  path : List PathCmd
  pixels : ℚ × ℚ → String

/-- Effect of a single context call on the canvas state. -/
def applyOp (r : Raster) (st : CanvasState) : DrawOp → CanvasState
  | DrawOp.setFillStyle c => { st with fillStyle := c }
  | DrawOp.fillRect x y rw rh =>
      { st with pixels := fun p =>
          if rectContains x y rw rh p then st.fillStyle else st.pixels p }
  | DrawOp.setFont f => { st with font := f }
  | DrawOp.setTextAlign a => { st with textAlign := a }
  | DrawOp.fillText s x y =>
      { st with pixels := fun p =>
          if r.textMask s st.font st.textAlign x y p then st.fillStyle
          else st.pixels p }
  | DrawOp.setStrokeStyle c => { st with strokeStyle := c }
  | DrawOp.setLineWidth lw => { st with lineWidth := lw }
  | DrawOp.beginPath => { st with path := [] }
  | DrawOp.moveTo x y => { st with path := st.path ++ [PathCmd.move x y] }
  | DrawOp.lineTo x y => { st with path := st.path ++ [PathCmd.line x y] }
  | DrawOp.stroke =>
      { st with pixels := fun p =>
          if r.strokeMask st.path st.lineWidth p then st.strokeStyle
          else st.pixels p }

/-- Run a trace of context calls on a canvas state. -/
def render (r : Raster) (ops : List DrawOp) (st : CanvasState) : CanvasState :=
  ops.foldl (applyOp r) st

/-- The display state that `updateFwhmData` reads and writes: the module
globals (`fwhmHistory`, `cameraRunning`), the `textContent` of the five
readouts it touches, the canvas dimensions, and the trace of the last
`drawChart` call. -/
structure UiState where
  fwhmHistory : List ℚ
  cameraRunning : Bool
  fwhmValue : String
  currentFwhm : String
  bestFwhm : String
  worstFwhm : String
  sampleCount : String
  canvasWidth : ℚ
  canvasHeight : ℚ
  chartOps : List DrawOp
  deriving DecidableEq

/-- The JSON body fetched from `/api/fwhm_data`: `current_fwhm` is `none`
when the field is `null`, `fwhm_history` is `none` when absent/null. -/
structure FwhmData where
  current_fwhm : Option ℚ
  fwhm_history : Option (List ℚ)
  deriving DecidableEq

/-- One successful poll tick of `updateFwhmData`: early return when the
camera is not running; update the current-FWHM readouts when
`data.current_fwhm !== null`; and when `data.fwhm_history` is present and
non-empty, replace `fwhmHistory`, update the Best/Worst/sample-count
readouts and redraw the chart. -/
def updateFwhmData (data : FwhmData) (σ : UiState) : UiState :=
  if !σ.cameraRunning then σ
  else
    let σ₁ :=
      match data.current_fwhm with
      | some fwhm =>
          { σ with fwhmValue := toFixed2 fwhm ++ " px",
                   currentFwhm := toFixed2 fwhm }
      | none => σ
    match data.fwhm_history with
    | some hist =>
        if 0 < hist.length then
          { σ₁ with fwhmHistory := hist,
                    bestFwhm := toFixed2 (listMin hist),
                    worstFwhm := toFixed2 (listMax hist),
                    sampleCount := toString hist.length,
                    chartOps := drawChart hist σ₁.canvasWidth σ₁.canvasHeight }
        else σ₁
    | none => σ₁

/-- One `<option>` element of a `<select>` node. -/
structure SelectOption where
  value : String
  textContent : String
  selected : Bool
  deriving DecidableEq

/-- The `configData` argument of `populateDropdown`. -/
structure DropdownConfig where
  Choices : List String
  Current : String
  deriving DecidableEq

/-- `populateDropdown`: clear the node (`innerHTML = ''`), then for each
choice append an option with `value` and `textContent` equal to the choice,
marked selected exactly when it equals `configData.Current`. -/
def populateDropdown (dropdown : List SelectOption) (configData : DropdownConfig) :
    List SelectOption :=
  let cleared : List SelectOption := []
  configData.Choices.foldl
    (fun opts choice =>
      let opt : SelectOption :=
        { value := choice, textContent := choice, selected := false }
      let opt := if choice = configData.Current then
          { opt with selected := true } else opt
      opts ++ [opt])
    cleared

/-- `true` exactly on `lineTo` operations. -/
def isLineTo : DrawOp → Bool
  | DrawOp.lineTo _ _ => true
  | _ => false

/-- `true` exactly on `moveTo` operations. -/
def isMoveTo : DrawOp → Bool
  | DrawOp.moveTo _ _ => true
  | _ => false

/-- `true` exactly on `stroke` operations. -/
def isStrokeOp : DrawOp → Bool
  | DrawOp.stroke => true
  | _ => false

lemma foldl_min_le_init (xs : List ℚ) : ∀ a : ℚ, xs.foldl min a ≤ a := by
  induction xs with
  | nil => intro a; simp
  | cons x xs ih =>
      intro a
      exact le_trans (ih (min a x)) (min_le_left a x)

lemma foldl_min_le_mem (xs : List ℚ) :
    ∀ (a x : ℚ), x ∈ xs → xs.foldl min a ≤ x := by
  induction xs with
  | nil => intro a x hx; simp at hx
  | cons y ys ih =>
      intro a x hx
      rcases List.mem_cons.mp hx with rfl | hx
      · exact le_trans (foldl_min_le_init ys (min a x)) (min_le_right a x)
      · exact ih (min a y) x hx

lemma foldl_min_mem (xs : List ℚ) :
    ∀ a : ℚ, xs.foldl min a = a ∨ xs.foldl min a ∈ xs := by
  induction xs with
  | nil => intro a; left; rfl
  | cons y ys ih =>
      intro a
      rcases ih (min a y) with h | h
      · rcases min_choice a y with hm | hm
        · left; rw [List.foldl_cons, h, hm]
        · right; rw [List.foldl_cons, h, hm]; exact List.mem_cons_self y ys
      · right; exact List.mem_cons_of_mem y h

lemma init_le_foldl_max (xs : List ℚ) : ∀ a : ℚ, a ≤ xs.foldl max a := by
  induction xs with
  | nil => intro a; simp
  | cons x xs ih =>
      intro a
      exact le_trans (le_max_left a x) (ih (max a x))

lemma mem_le_foldl_max (xs : List ℚ) :
    ∀ (a x : ℚ), x ∈ xs → x ≤ xs.foldl max a := by
  induction xs with
  | nil => intro a x hx; simp at hx
  | cons y ys ih =>
      intro a x hx
      rcases List.mem_cons.mp hx with rfl | hx
      · exact le_trans (le_max_right a x) (init_le_foldl_max ys (max a x))
      · exact ih (max a y) x hx

lemma foldl_max_mem (xs : List ℚ) :
    ∀ a : ℚ, xs.foldl max a = a ∨ xs.foldl max a ∈ xs := by
  induction xs with
  | nil => intro a; left; rfl
  | cons y ys ih =>
      intro a
      rcases ih (max a y) with h | h
      · rcases max_choice a y with hm | hm
        · left; rw [List.foldl_cons, h, hm]
        · right; rw [List.foldl_cons, h, hm]; exact List.mem_cons_self y ys
      · right; exact List.mem_cons_of_mem y h

lemma listMin_le {samples : List ℚ} {x : ℚ} (hx : x ∈ samples) :
    listMin samples ≤ x := by
  cases samples with
  | nil => simp at hx
  | cons y ys =>
      rcases List.mem_cons.mp hx with rfl | hx
      · exact foldl_min_le_init ys x
      · exact foldl_min_le_mem ys y x hx

lemma le_listMax {samples : List ℚ} {x : ℚ} (hx : x ∈ samples) :
    x ≤ listMax samples := by
  cases samples with
  | nil => simp at hx
  | cons y ys =>
      rcases List.mem_cons.mp hx with rfl | hx
      · exact init_le_foldl_max ys x
      · exact mem_le_foldl_max ys y x hx

lemma listMin_mem {samples : List ℚ} (h : samples ≠ []) :
    listMin samples ∈ samples := by
  cases samples with
  | nil => exact absurd rfl h
  | cons y ys =>
      rcases foldl_min_mem ys y with hm | hm
      · rw [listMin, hm]; exact List.mem_cons_self y ys
      · exact List.mem_cons_of_mem y hm

lemma listMax_mem {samples : List ℚ} (h : samples ≠ []) :
    listMax samples ∈ samples := by
  cases samples with
  | nil => exact absurd rfl h
  | cons y ys =>
      rcases foldl_max_mem ys y with hm | hm
      · rw [listMax, hm]; exact List.mem_cons_self y ys
      · exact List.mem_cons_of_mem y hm

/-- C1: refuted on the source as written; the claim is what the spec
mandates, and the code violates it.  For the flat series `[5, 5, 5]`
(length `3 ≥ 2`, so the line-drawing path is taken), `range = 0` and
`padding = range * 0.1 = 0`, so the normalisation denominator
`range + 2 * padding` is exactly `0` and the numerator
`fwhm - minFwhm + padding` is also `0`; in JavaScript every
`normalizedFwhm` is therefore `0 / 0 = NaN`, and every y-coordinate on the
line-drawing path is `NaN`, contradicting the claim that the denominator is
never zero and every y-coordinate is finite. -/
theorem drawChart_flat_series_zero_denominator :
    ¬ (([5, 5, 5] : List ℚ).length < 2) ∧
    normDenom [5, 5, 5] = 0 ∧
    normNum [5, 5, 5] 5 = 0 ∧
    drawChart [5, 5, 5] 300 200 =
      clearOps 300 200 ++ gridOps 300 200 ++ lineOps [5, 5, 5] 300 200 ++
        labelOps [5, 5, 5] 300 200 := by
  refine ⟨by decide, ?_, ?_, ?_⟩
  · norm_num [normDenom, chartRange, chartPadding, listMin, listMax]
  · norm_num [normNum, chartRange, chartPadding, listMin, listMax]
  · norm_num [drawChart, List.append_assoc]

/-- C3: for a series of fewer than two samples, `drawChart` fills the
background, draws only the centered "No data yet" placeholder and returns:
the trace is exactly the clear followed by the placeholder, with no
`moveTo`/`lineTo`/`stroke` (no gridlines, no line segments) and no text
other than the placeholder (in particular no Best/Worst labels). -/
theorem drawChart_placeholder_short_series (samples : List ℚ)
    (width height : ℚ) (hlen : samples.length < 2) :
    drawChart samples width height =
      [DrawOp.setFillStyle "#0a0a0a", DrawOp.fillRect 0 0 width height,
       DrawOp.setFillStyle "#666", DrawOp.setFont "14px sans-serif",
       DrawOp.setTextAlign "center",
       DrawOp.fillText "No data yet" (width / 2) (height / 2)] ∧
    (drawChart samples width height).countP isLineTo = 0 ∧
    (drawChart samples width height).countP isMoveTo = 0 ∧
    (drawChart samples width height).countP isStrokeOp = 0 ∧
    (∀ s x y, DrawOp.fillText s x y ∈ drawChart samples width height →
      s = "No data yet") := by
  have h : drawChart samples width height =
      [DrawOp.setFillStyle "#0a0a0a", DrawOp.fillRect 0 0 width height,
       DrawOp.setFillStyle "#666", DrawOp.setFont "14px sans-serif",
       DrawOp.setTextAlign "center",
       DrawOp.fillText "No data yet" (width / 2) (height / 2)] := by
    simp [drawChart, hlen, clearOps, placeholderOps]
  refine ⟨h, ?_, ?_, ?_, ?_⟩
  · rw [h]; simp [List.countP_cons, isLineTo]
  · rw [h]; simp [List.countP_cons, isMoveTo]
  · rw [h]; simp [List.countP_cons, isStrokeOp]
  · intro s x y hmem
    rw [h] at hmem
    simp only [List.mem_cons, List.not_mem_nil, or_false] at hmem
    rcases hmem with h1 | h1 | h1 | h1 | h1 | h1 <;> simp_all

/-- Closed instance of C3 at the one-sample series `[7]` on a 300×200
surface. -/
theorem drawChart_placeholder_short_series_witness :
    (([7] : List ℚ).length < 2) ∧
    (drawChart [7] 300 200 =
      [DrawOp.setFillStyle "#0a0a0a", DrawOp.fillRect 0 0 300 200,
       DrawOp.setFillStyle "#666", DrawOp.setFont "14px sans-serif",
       DrawOp.setTextAlign "center",
       DrawOp.fillText "No data yet" (300 / 2) (200 / 2)] ∧
    (drawChart [7] 300 200).countP isLineTo = 0 ∧
    (drawChart [7] 300 200).countP isMoveTo = 0 ∧
    (drawChart [7] 300 200).countP isStrokeOp = 0 ∧
    (∀ s x y, DrawOp.fillText s x y ∈ drawChart [7] 300 200 →
      s = "No data yet")) :=
  ⟨by decide, drawChart_placeholder_short_series [7] 300 200 (by decide)⟩

lemma map_polyOpAt_enumFrom (pts : List (ℚ × ℚ)) :
    ∀ n : ℕ, n ≠ 0 →
      (List.enumFrom n pts).map polyOpAt =
        pts.map (fun q => DrawOp.lineTo q.1 q.2) := by
  induction pts with
  | nil => intro n _; simp
  | cons q qs ih =>
      intro n hn
      rw [List.enumFrom_cons, List.map_cons, List.map_cons, ih (n + 1) n.succ_ne_zero]
      simp [polyOpAt, hn]

lemma polyOps_cons (p : ℚ × ℚ) (pts : List (ℚ × ℚ)) :
    polyOps (p :: pts) =
      DrawOp.moveTo p.1 p.2 :: pts.map (fun q => DrawOp.lineTo q.1 q.2) := by
  rw [polyOps, List.enum_cons, List.map_cons,
    map_polyOpAt_enumFrom pts 1 one_ne_zero]
  simp [polyOpAt]

lemma chartPoints_length (samples : List ℚ) (width height : ℚ) :
    (chartPoints samples width height).length = samples.length := by
  simp [chartPoints, List.enum_length]

/-- C2: for a series of `N ≥ 2` samples, the data polyline consists of one
`moveTo` to the point of index 0 followed by one `lineTo` per subsequent
point, in index order: exactly `1` `moveTo` and `N - 1` `lineTo` straight
segments connecting the `N` mapped points, and these operations sit between
`beginPath` and `stroke` in the trace `drawChart` emits. -/
theorem drawChart_polyline_segments (samples : List ℚ) (width height : ℚ)
    (hlen : 2 ≤ samples.length) :
    ∃ p₀ rest, chartPoints samples width height = p₀ :: rest ∧
      rest.length = samples.length - 1 ∧
      polyOps (chartPoints samples width height) =
        DrawOp.moveTo p₀.1 p₀.2 :: rest.map (fun q => DrawOp.lineTo q.1 q.2) ∧
      (polyOps (chartPoints samples width height)).countP isLineTo =
        samples.length - 1 ∧
      (polyOps (chartPoints samples width height)).countP isMoveTo = 1 ∧
      drawChart samples width height =
        clearOps width height ++ gridOps width height ++
          ([DrawOp.setStrokeStyle "#4a9eff", DrawOp.setLineWidth 2,
            DrawOp.beginPath] ++
            polyOps (chartPoints samples width height) ++ [DrawOp.stroke]) ++
          labelOps samples width height := by
  have hL := chartPoints_length samples width height
  obtain ⟨p₀, rest, hcp⟩ :
      ∃ p₀ rest, chartPoints samples width height = p₀ :: rest := by
    cases h : chartPoints samples width height with
    | nil => rw [h] at hL; simp at hL; omega
    | cons a b => exact ⟨a, b, rfl⟩
  rw [hcp] at hL
  simp only [List.length_cons] at hL
  refine ⟨p₀, rest, hcp, by omega, ?_, ?_, ?_, ?_⟩
  · rw [hcp, polyOps_cons]
  · rw [hcp, polyOps_cons, List.countP_cons, List.countP_map]
    have h1 : List.countP (isLineTo ∘ fun q => DrawOp.lineTo q.1 q.2) rest =
        rest.length := List.countP_eq_length.mpr (fun a _ => rfl)
    simp [isLineTo, h1]
    omega
  · rw [hcp, polyOps_cons, List.countP_cons, List.countP_map]
    have h1 : List.countP (isMoveTo ∘ fun q => DrawOp.lineTo q.1 q.2) rest =
        0 := List.countP_eq_zero.mpr (fun a _ => by simp [isMoveTo, Function.comp])
    simp [isMoveTo, h1]
  · rw [drawChart, if_neg (by omega), lineOps]
    simp [List.append_assoc]

/-- Closed instance of C2 at `[1, 2]` on a 300×200 surface. -/
theorem drawChart_polyline_segments_witness :
    2 ≤ ([1, 2] : List ℚ).length ∧
    (∃ p₀ rest, chartPoints [1, 2] 300 200 = p₀ :: rest ∧
      rest.length = ([1, 2] : List ℚ).length - 1 ∧
      polyOps (chartPoints [1, 2] 300 200) =
        DrawOp.moveTo p₀.1 p₀.2 :: rest.map (fun q => DrawOp.lineTo q.1 q.2) ∧
      (polyOps (chartPoints [1, 2] 300 200)).countP isLineTo =
        ([1, 2] : List ℚ).length - 1 ∧
      (polyOps (chartPoints [1, 2] 300 200)).countP isMoveTo = 1 ∧
      drawChart [1, 2] 300 200 =
        clearOps 300 200 ++ gridOps 300 200 ++
          ([DrawOp.setStrokeStyle "#4a9eff", DrawOp.setLineWidth 2,
            DrawOp.beginPath] ++
            polyOps (chartPoints [1, 2] 300 200) ++ [DrawOp.stroke]) ++
          labelOps [1, 2] 300 200) :=
  ⟨by decide, drawChart_polyline_segments [1, 2] 300 200 (by decide)⟩

lemma chartPoints_map_fst (samples : List ℚ) (width height : ℚ) :
    (chartPoints samples width height).map Prod.fst =
      (List.range samples.length).map
        (fun i : ℕ => (i : ℚ) / ((samples.length : ℚ) - 1) * width) := by
  have hcomp : Prod.fst ∘ plotPoint samples width height =
      (fun i : ℕ => (i : ℚ) / ((samples.length : ℚ) - 1) * width) ∘ Prod.fst :=
    funext (fun x => rfl)
  rw [chartPoints, List.map_map, hcomp, ← List.map_map, List.enum_map_fst]

lemma getD_map_range (n i : ℕ) (f : ℕ → ℚ) (hi : i < n) :
    ((List.range n).map f).getD i 0 = f i := by
  rw [List.getD_eq_getElem?_getD, List.getElem?_map, List.getElem?_range hi]
  rfl

/-- C6: for a series of `N ≥ 2` samples, the x-coordinates of the plotted
points are exactly `(i / (N - 1)) * width` for `i = 0 .. N-1`: the first
point is at `x = 0`, the last at `x = width`, and the whole x-coordinate
list depends only on the length of the series, not on the sample values. -/
theorem drawChart_x_coordinates (samples : List ℚ) (width height : ℚ)
    (hlen : 2 ≤ samples.length) :
    (chartPoints samples width height).map Prod.fst =
      (List.range samples.length).map
        (fun i : ℕ => (i : ℚ) / ((samples.length : ℚ) - 1) * width) ∧
    ((chartPoints samples width height).map Prod.fst).getD 0 0 = 0 ∧
    ((chartPoints samples width height).map Prod.fst).getD
      (samples.length - 1) 0 = width ∧
    (∀ samples' : List ℚ, samples'.length = samples.length →
      (chartPoints samples' width height).map Prod.fst =
        (chartPoints samples width height).map Prod.fst) := by
  have hmain := chartPoints_map_fst samples width height
  have hne : ((samples.length : ℚ) - 1) ≠ 0 := by
    have h2 : (2 : ℚ) ≤ (samples.length : ℚ) := by exact_mod_cast hlen
    intro h
    rw [sub_eq_zero] at h
    rw [h] at h2
    norm_num at h2
  refine ⟨hmain, ?_, ?_, ?_⟩
  · rw [hmain, getD_map_range _ _ _ (by omega)]
    norm_num
  · rw [hmain, getD_map_range _ _ _ (by omega)]
    rw [Nat.cast_sub (by omega), Nat.cast_one, div_self hne, one_mul]
  · intro samples' hlen'
    rw [hmain, chartPoints_map_fst, hlen']

/-- Closed instance of C6 at `[1, 2]` on a 300×200 surface: the first
x-coordinate is `0` and the last is `300`. -/
theorem drawChart_x_coordinates_witness :
    2 ≤ ([1, 2] : List ℚ).length ∧
    ((chartPoints [1, 2] 300 200).map Prod.fst =
      (List.range ([1, 2] : List ℚ).length).map
        (fun i : ℕ => (i : ℚ) / ((([1, 2] : List ℚ).length : ℚ) - 1) * 300) ∧
    ((chartPoints [1, 2] 300 200).map Prod.fst).getD 0 0 = 0 ∧
    ((chartPoints [1, 2] 300 200).map Prod.fst).getD
      (([1, 2] : List ℚ).length - 1) 0 = 300 ∧
    (∀ samples' : List ℚ, samples'.length = ([1, 2] : List ℚ).length →
      (chartPoints samples' 300 200).map Prod.fst =
        (chartPoints [1, 2] 300 200).map Prod.fst)) :=
  ⟨by decide, drawChart_x_coordinates [1, 2] 300 200 (by decide)⟩

lemma normDenom_eq (samples : List ℚ) :
    normDenom samples = chartRange samples * (6 / 5) := by
  rw [normDenom, chartPadding]; ring

lemma normalized_bounds {samples : List ℚ} {f : ℚ} (hf : f ∈ samples)
    (hr : listMin samples < listMax samples) :
    0 ≤ normNum samples f / normDenom samples ∧
      normNum samples f / normDenom samples ≤ 1 := by
  have hmin := listMin_le hf
  have hmax := le_listMax hf
  have hrange : 0 < chartRange samples := sub_pos.mpr hr
  have hdenom : 0 < normDenom samples := by
    rw [normDenom_eq]; positivity
  have hnum : 0 ≤ normNum samples f := by
    rw [normNum, chartPadding]; nlinarith
  constructor
  · exact div_nonneg hnum hdenom.le
  · rw [div_le_one hdenom, normNum, normDenom, chartPadding, chartRange]
    nlinarith

/-- C7 (amended with `20 ≤ height`): for a series of `N ≥ 2` samples with
strictly positive range and a surface of height at least 20, every
normalised value lies in `[0, 1]` and every plotted y-coordinate
`y = height - (normalized * (height - 20)) - 10` lies in
`[10, height - 10]`. -/
theorem drawChart_y_coordinates_within_margins (samples : List ℚ)
    (width height : ℚ) (hlen : 2 ≤ samples.length)
    (hr : listMin samples < listMax samples) (hh : 20 ≤ height) :
    (∀ f ∈ samples, 0 ≤ normNum samples f / normDenom samples ∧
      normNum samples f / normDenom samples ≤ 1) ∧
    (∀ pt ∈ chartPoints samples width height,
      10 ≤ pt.2 ∧ pt.2 ≤ height - 10) := by
  refine ⟨fun f hf => normalized_bounds hf hr, ?_⟩
  intro pt hpt
  rw [chartPoints, List.mem_map] at hpt
  obtain ⟨x, hx, rfl⟩ := hpt
  have hf : x.2 ∈ samples := by
    rw [List.mem_enum_iff_getElem?] at hx
    exact List.mem_iff_getElem?.mpr ⟨x.1, hx⟩
  obtain ⟨h0, h1⟩ := normalized_bounds hf hr
  set n := normNum samples x.2 / normDenom samples with hn
  have hub : n * (height - 20) ≤ height - 20 :=
    mul_le_of_le_one_left (by linarith) h1
  have hlb : 0 ≤ n * (height - 20) := mul_nonneg h0 (by linarith)
  constructor
  · show 10 ≤ height - n * (height - 20) - 10
    linarith
  · show height - n * (height - 20) - 10 ≤ height - 10
    linarith

/-- Closed instance of the amended C7 at `[3, 1, 2]` on a 300×200
surface. -/
theorem drawChart_y_coordinates_within_margins_witness :
    2 ≤ ([3, 1, 2] : List ℚ).length ∧
    listMin [3, 1, 2] < listMax [3, 1, 2] ∧
    (20 : ℚ) ≤ 200 ∧
    ((∀ f ∈ ([3, 1, 2] : List ℚ),
        0 ≤ normNum [3, 1, 2] f / normDenom [3, 1, 2] ∧
        normNum [3, 1, 2] f / normDenom [3, 1, 2] ≤ 1) ∧
      (∀ pt ∈ chartPoints [3, 1, 2] 300 200,
        10 ≤ pt.2 ∧ pt.2 ≤ 200 - 10)) :=
  ⟨by decide, by decide, by norm_num,
    drawChart_y_coordinates_within_margins [3, 1, 2] 300 200 (by decide)
      (by decide) (by norm_num)⟩

/-- C7 as stated is false for surfaces shorter than 20 pixels: for the
series `[1, 2]` (length 2, strictly positive range) on a surface of height
10, the first plotted point has `y = 5/6`, which does not lie in
`[10, height - 10] = [10, 0]`. -/
theorem drawChart_y_margin_fails_on_short_surface :
    2 ≤ ([1, 2] : List ℚ).length ∧
    listMin [1, 2] < listMax [1, 2] ∧
    ((chartPoints [1, 2] 300 10).map Prod.snd).getD 0 0 = 5 / 6 ∧
    ¬ (10 ≤ (5 / 6 : ℚ) ∧ (5 / 6 : ℚ) ≤ 10 - 10) := by
  refine ⟨by decide, by decide, ?_, by norm_num⟩
  norm_num [chartPoints, plotPoint, normNum, normDenom, chartRange,
    chartPadding, listMin, listMax, List.enum_cons, List.enumFrom_cons,
    List.enumFrom_nil]

/-- C5: for a series of `N ≥ 2` samples, the trace ends with the two label
operations: the "Best" label `fillText`, left-aligned and anchored at the
bottom-left `(5, height - 5)` with text `"Best: "` followed by the series
minimum rendered by `toFixed(2)`, and the "Worst" label, right-aligned and
anchored at the top-right `(width - 5, 15)` with text `"Worst: "` followed
by the series maximum; the minimum and maximum are value extrema of the
whole series, and the anchor coordinates do not depend on the data. -/
theorem drawChart_best_worst_labels (samples : List ℚ) (width height : ℚ)
    (hlen : 2 ≤ samples.length) :
    (∃ pre, drawChart samples width height = pre ++
      [DrawOp.setFillStyle "#4ade80", DrawOp.setFont "12px sans-serif",
       DrawOp.setTextAlign "left",
       DrawOp.fillText ("Best: " ++ toFixed2 (listMin samples)) 5 (height - 5),
       DrawOp.setFillStyle "#ff4a4a", DrawOp.setTextAlign "right",
       DrawOp.fillText ("Worst: " ++ toFixed2 (listMax samples)) (width - 5) 15]) ∧
    listMin samples ∈ samples ∧ (∀ x ∈ samples, listMin samples ≤ x) ∧
    listMax samples ∈ samples ∧ (∀ x ∈ samples, x ≤ listMax samples) := by
  have hne : samples ≠ [] := by
    intro h; rw [h] at hlen; simp at hlen
  refine ⟨⟨clearOps width height ++ gridOps width height ++
      lineOps samples width height, ?_⟩,
    listMin_mem hne, fun x hx => listMin_le hx,
    listMax_mem hne, fun x hx => le_listMax hx⟩
  rw [drawChart, if_neg (by omega), labelOps]
  simp [List.append_assoc]

/-- Closed instance of C5 at `[3.0, 1.0, 2.0]` on a 300×200 surface: the
labels read exactly `"Best: 1.00"` and `"Worst: 3.00"`. -/
theorem drawChart_best_worst_labels_witness :
    (∃ pre, drawChart [3, 1, 2] 300 200 = pre ++
      [DrawOp.setFillStyle "#4ade80", DrawOp.setFont "12px sans-serif",
       DrawOp.setTextAlign "left",
       DrawOp.fillText "Best: 1.00" 5 (200 - 5),
       DrawOp.setFillStyle "#ff4a4a", DrawOp.setTextAlign "right",
       DrawOp.fillText "Worst: 3.00" (300 - 5) 15]) ∧
    ((1 : ℚ) ∈ ([3, 1, 2] : List ℚ)) ∧
    (∀ x ∈ ([3, 1, 2] : List ℚ), (1 : ℚ) ≤ x) ∧
    ((3 : ℚ) ∈ ([3, 1, 2] : List ℚ)) ∧
    (∀ x ∈ ([3, 1, 2] : List ℚ), x ≤ (3 : ℚ)) := by
  have h := drawChart_best_worst_labels [3, 1, 2] 300 200 (by decide)
  have hmin : listMin [3, 1, 2] = 1 := by decide
  have hmax : listMax [3, 1, 2] = 3 := by decide
  have hbest : toFixed2 (1 : ℚ) = "1.00" := by decide
  have hworst : toFixed2 (3 : ℚ) = "3.00" := by decide
  rw [hmin, hmax, hbest, hworst] at h
  exact h

/-- `true` exactly on path-building operations (`moveTo`/`lineTo`). -/
def isPathOp : DrawOp → Bool
  | DrawOp.moveTo _ _ => true
  | DrawOp.lineTo _ _ => true
  | _ => false

/-- The path command recorded by a path-building operation. -/
def toPathCmd : DrawOp → PathCmd
  | DrawOp.moveTo x y => PathCmd.move x y
  | DrawOp.lineTo x y => PathCmd.line x y
  | _ => PathCmd.move 0 0

lemma render_append (r : Raster) (ops₁ ops₂ : List DrawOp)
    (st : CanvasState) :
    render r (ops₁ ++ ops₂) st = render r ops₂ (render r ops₁ st) :=
  List.foldl_append _ _ _ _

lemma render_path_only (r : Raster) :
    ∀ (ops : List DrawOp) (st : CanvasState),
      (∀ op ∈ ops, isPathOp op = true) →
      render r ops st = { st with path := st.path ++ ops.map toPathCmd } := by
  intro ops
  induction ops with
  | nil => intro st _; simp [render]
  | cons op ops ih =>
      intro st hops
      have hop := hops op (List.mem_cons_self _ _)
      have hrest : ∀ o ∈ ops, isPathOp o = true :=
        fun o ho => hops o (List.mem_cons_of_mem _ ho)
      have hstep : render r (op :: ops) st =
          render r ops (applyOp r st op) := rfl
      cases op with
      | setFillStyle c => simp [isPathOp] at hop
      | fillRect a b c d => simp [isPathOp] at hop
      | setFont f => simp [isPathOp] at hop
      | setTextAlign a => simp [isPathOp] at hop
      | fillText s a b => simp [isPathOp] at hop
      | setStrokeStyle c => simp [isPathOp] at hop
      | setLineWidth lw => simp [isPathOp] at hop
      | beginPath => simp [isPathOp] at hop
      | stroke => simp [isPathOp] at hop
      | moveTo x y =>
          rw [hstep, ih _ hrest]
          simp [applyOp, toPathCmd, List.append_assoc]
      | lineTo x y =>
          rw [hstep, ih _ hrest]
          simp [applyOp, toPathCmd, List.append_assoc]

lemma polyOps_path (pts : List (ℚ × ℚ)) :
    ∀ op ∈ polyOps pts, isPathOp op = true := by
  intro op hop
  rw [polyOps, List.mem_map] at hop
  obtain ⟨x, _, rfl⟩ := hop
  rw [polyOpAt]
  split <;> rfl

lemma render_clearOps (r : Raster) (w h : ℚ) (st : CanvasState) :
    render r (clearOps w h) st =
      { st with fillStyle := "#0a0a0a",
                pixels := fun p =>
                  if rectContains 0 0 w h p then "#0a0a0a"
                  else st.pixels p } := by
  simp [clearOps, render, applyOp]

lemma render_gridLine (r : Raster) (w h i : ℚ) (st : CanvasState) :
    render r (gridLine w h i) st =
      { st with
          path := [PathCmd.move 0 (h / 5 * i), PathCmd.line w (h / 5 * i)],
          pixels := fun p =>
            if r.strokeMask [PathCmd.move 0 (h / 5 * i),
                PathCmd.line w (h / 5 * i)] st.lineWidth p then st.strokeStyle
            else st.pixels p } := by
  simp [gridLine, render, applyOp]

lemma render_gridOps (r : Raster) (w h : ℚ) (st : CanvasState) :
    render r (gridOps w h) st =
      { st with
          strokeStyle := "#222", lineWidth := 1,
          path := [PathCmd.move 0 (h / 5 * 4), PathCmd.line w (h / 5 * 4)],
          pixels := fun p =>
            if r.strokeMask [PathCmd.move 0 (h / 5 * 4),
                PathCmd.line w (h / 5 * 4)] 1 p then "#222"
            else if r.strokeMask [PathCmd.move 0 (h / 5 * 3),
                PathCmd.line w (h / 5 * 3)] 1 p then "#222"
            else if r.strokeMask [PathCmd.move 0 (h / 5 * 2),
                PathCmd.line w (h / 5 * 2)] 1 p then "#222"
            else if r.strokeMask [PathCmd.move 0 (h / 5 * 1),
                PathCmd.line w (h / 5 * 1)] 1 p then "#222"
            else st.pixels p } := by
  rw [gridOps, render_append, render_append, render_append, render_append,
    render_gridLine, render_gridLine, render_gridLine, render_gridLine]
  simp [render, applyOp]

lemma render_lineOps (r : Raster) (samples : List ℚ) (w h : ℚ)
    (st : CanvasState) :
    render r (lineOps samples w h) st =
      { st with
          strokeStyle := "#4a9eff", lineWidth := 2,
          path := (polyOps (chartPoints samples w h)).map toPathCmd,
          pixels := fun p =>
            if r.strokeMask ((polyOps (chartPoints samples w h)).map toPathCmd)
                2 p then "#4a9eff"
            else st.pixels p } := by
  rw [lineOps, render_append, render_append,
    render_path_only r _ _ (polyOps_path _)]
  simp [render, applyOp]

lemma render_labelOps (r : Raster) (samples : List ℚ) (w h : ℚ)
    (st : CanvasState) :
    render r (labelOps samples w h) st =
      { st with
          fillStyle := "#ff4a4a", font := "12px sans-serif",
          textAlign := "right",
          pixels := fun p =>
            if r.textMask ("Worst: " ++ toFixed2 (listMax samples))
                "12px sans-serif" "right" (w - 5) 15 p then "#ff4a4a"
            else if r.textMask ("Best: " ++ toFixed2 (listMin samples))
                "12px sans-serif" "left" 5 (h - 5) p then "#4ade80"
            else st.pixels p } := by
  simp [labelOps, render, applyOp]

/-- C4: rendering is deterministic and idempotent at the pixel level.  For
every abstract rasteriser, every sample series and surface, and every pixel
inside the surface, the pixel colour after running the `drawChart` trace is
independent of the prior context state and canvas contents (the trace
begins by filling the whole surface and sets every style it uses before
using it); in particular re-running the same trace a second time leaves
every surface pixel unchanged. -/
theorem drawChart_render_deterministic_idempotent (r : Raster)
    (samples : List ℚ) (width height : ℚ) (st st' : CanvasState)
    (p : ℚ × ℚ) (hp : rectContains 0 0 width height p) :
    (render r (drawChart samples width height) st).pixels p =
      (render r (drawChart samples width height) st').pixels p ∧
    (render r (drawChart samples width height)
        (render r (drawChart samples width height) st)).pixels p =
      (render r (drawChart samples width height) st).pixels p := by
  have key : ∀ s₁ s₂ : CanvasState,
      (render r (drawChart samples width height) s₁).pixels p =
        (render r (drawChart samples width height) s₂).pixels p := by
    intro s₁ s₂
    by_cases hlen : samples.length < 2
    · simp only [drawChart, if_pos hlen]
      rw [render_append, render_append, render_clearOps, render_clearOps]
      simp [placeholderOps, render, applyOp, hp]
    · simp only [drawChart, if_neg hlen]
      rw [render_append, render_append, render_append, render_append,
        render_append, render_append, render_clearOps, render_clearOps,
        render_gridOps, render_gridOps, render_lineOps, render_lineOps,
        render_labelOps, render_labelOps]
      simp [hp]
  exact ⟨key st st',
    key (render r (drawChart samples width height) st) st⟩

/-- Closed instance of C4: a concrete rasteriser, two concrete initial
canvas states and a concrete in-surface pixel for the series `[1, 2]` on a
300×200 surface. -/
theorem drawChart_render_deterministic_idempotent_witness :
    rectContains 0 0 300 200 ((1 : ℚ), (1 : ℚ)) ∧
    ((render (Raster.mk (fun _ _ _ => false) (fun _ _ _ _ _ _ => false))
        (drawChart [1, 2] 300 200)
        (CanvasState.mk "a" "b" "c" "d" 1 [] (fun _ => "x"))).pixels (1, 1) =
      (render (Raster.mk (fun _ _ _ => false) (fun _ _ _ _ _ _ => false))
        (drawChart [1, 2] 300 200)
        (CanvasState.mk "e" "f" "g" "h" 2 [] (fun _ => "y"))).pixels (1, 1) ∧
    (render (Raster.mk (fun _ _ _ => false) (fun _ _ _ _ _ _ => false))
        (drawChart [1, 2] 300 200)
        (render (Raster.mk (fun _ _ _ => false) (fun _ _ _ _ _ _ => false))
          (drawChart [1, 2] 300 200)
          (CanvasState.mk "a" "b" "c" "d" 1 [] (fun _ => "x")))).pixels (1, 1) =
      (render (Raster.mk (fun _ _ _ => false) (fun _ _ _ _ _ _ => false))
        (drawChart [1, 2] 300 200)
        (CanvasState.mk "a" "b" "c" "d" 1 [] (fun _ => "x"))).pixels (1, 1)) :=
  ⟨by norm_num [rectContains],
    drawChart_render_deterministic_idempotent _ [1, 2] 300 200 _ _ (1, 1)
      (by norm_num [rectContains])⟩

/-- C8: when a poll tick takes the replacement branch (camera running,
fetched `fwhm_history` present and non-empty), the new buffer is the
fetched sequence verbatim — independent of the prior buffer contents, with
no merging, deduplication or capping — and the redrawn chart is the chart
of exactly that sequence. -/
theorem updateFwhmData_replaces_history_verbatim (data : FwhmData)
    (σ : UiState) (hist : List ℚ) (hrun : σ.cameraRunning = true)
    (hhist : data.fwhm_history = some hist) (hne : 0 < hist.length) :
    (updateFwhmData data σ).fwhmHistory = hist ∧
    (updateFwhmData data σ).chartOps =
      drawChart hist σ.canvasWidth σ.canvasHeight := by
  rw [updateFwhmData, hrun]
  cases data.current_fwhm <;> rw [hhist] <;> simp [hne]

/-- Closed instance of C8: a state whose buffer holds `[9]` receives the
history `[1, 2, 3]` and ends up holding exactly `[1, 2, 3]`. -/
theorem updateFwhmData_replaces_history_verbatim_witness :
    ((UiState.mk [9] true "v" "c" "b" "w" "n" 300 200 []).cameraRunning
        = true) ∧
    ((FwhmData.mk (some 2) (some [1, 2, 3])).fwhm_history
        = some [1, 2, 3]) ∧
    0 < ([1, 2, 3] : List ℚ).length ∧
    ((updateFwhmData (FwhmData.mk (some 2) (some [1, 2, 3]))
        (UiState.mk [9] true "v" "c" "b" "w" "n" 300 200 [])).fwhmHistory
          = [1, 2, 3] ∧
      (updateFwhmData (FwhmData.mk (some 2) (some [1, 2, 3]))
        (UiState.mk [9] true "v" "c" "b" "w" "n" 300 200 [])).chartOps =
        drawChart [1, 2, 3]
          (UiState.mk [9] true "v" "c" "b" "w" "n" 300 200 []).canvasWidth
          (UiState.mk [9] true "v" "c" "b" "w" "n" 300 200 []).canvasHeight) :=
  ⟨rfl, rfl, by decide,
    updateFwhmData_replaces_history_verbatim _ _ [1, 2, 3] rfl rfl (by decide)⟩

/-- C9: a poll tick mutates the sample buffer, the Best/Worst/sample-count
readouts and the chart only when the camera is running and the fetched
`fwhm_history` is present and non-empty.  When the camera is not running
the whole state is unchanged; when the history is absent or empty the
buffer and all of those display fields are unchanged (an empty history does
not clear the chart); and when the conditions hold they are all updated
from the fetched history. -/
theorem updateFwhmData_frame_effect (data : FwhmData) (σ : UiState) :
    (σ.cameraRunning = false → updateFwhmData data σ = σ) ∧
    ((data.fwhm_history = none ∨ data.fwhm_history = some []) →
      (updateFwhmData data σ).fwhmHistory = σ.fwhmHistory ∧
      (updateFwhmData data σ).bestFwhm = σ.bestFwhm ∧
      (updateFwhmData data σ).worstFwhm = σ.worstFwhm ∧
      (updateFwhmData data σ).sampleCount = σ.sampleCount ∧
      (updateFwhmData data σ).chartOps = σ.chartOps) ∧
    (∀ hist : List ℚ, σ.cameraRunning = true →
      data.fwhm_history = some hist → 0 < hist.length →
      (updateFwhmData data σ).fwhmHistory = hist ∧
      (updateFwhmData data σ).bestFwhm = toFixed2 (listMin hist) ∧
      (updateFwhmData data σ).worstFwhm = toFixed2 (listMax hist) ∧
      (updateFwhmData data σ).sampleCount = toString hist.length ∧
      (updateFwhmData data σ).chartOps =
        drawChart hist σ.canvasWidth σ.canvasHeight) := by
  refine ⟨?_, ?_, ?_⟩
  · intro hstop
    rw [updateFwhmData, hstop]
    rfl
  · intro habs
    cases hrun : σ.cameraRunning with
    | false => rw [updateFwhmData, hrun]; exact ⟨rfl, rfl, rfl, rfl, rfl⟩
    | true =>
        rw [updateFwhmData, hrun]
        rcases habs with h | h <;>
          cases data.current_fwhm <;> rw [h] <;> simp
  · intro hist hrun hhist hne
    rw [updateFwhmData, hrun]
    cases data.current_fwhm <;> rw [hhist] <;> simp [hne]

/-- Closed instance of C9: with the camera stopped, a tick carrying data
leaves the state unchanged; with the camera running, a tick carrying an
empty history leaves the buffer and the affected display fields
unchanged. -/
theorem updateFwhmData_frame_effect_witness :
    ((UiState.mk [9] false "v" "c" "b" "w" "n" 300 200 []).cameraRunning
        = false →
      updateFwhmData (FwhmData.mk (some 2) (some [1]))
        (UiState.mk [9] false "v" "c" "b" "w" "n" 300 200 []) =
        UiState.mk [9] false "v" "c" "b" "w" "n" 300 200 []) ∧
    (((FwhmData.mk (some 2) (some [])).fwhm_history = none ∨
        (FwhmData.mk (some 2) (some [])).fwhm_history = some []) →
      (updateFwhmData (FwhmData.mk (some 2) (some []))
          (UiState.mk [9] true "v" "c" "b" "w" "n" 300 200 [])).fwhmHistory
        = [9] ∧
      (updateFwhmData (FwhmData.mk (some 2) (some []))
          (UiState.mk [9] true "v" "c" "b" "w" "n" 300 200 [])).bestFwhm
        = "b" ∧
      (updateFwhmData (FwhmData.mk (some 2) (some []))
          (UiState.mk [9] true "v" "c" "b" "w" "n" 300 200 [])).worstFwhm
        = "w" ∧
      (updateFwhmData (FwhmData.mk (some 2) (some []))
          (UiState.mk [9] true "v" "c" "b" "w" "n" 300 200 [])).sampleCount
        = "n" ∧
      (updateFwhmData (FwhmData.mk (some 2) (some []))
          (UiState.mk [9] true "v" "c" "b" "w" "n" 300 200 [])).chartOps
        = []) := by
  constructor
  · intro h
    exact (updateFwhmData_frame_effect (FwhmData.mk (some 2) (some [1]))
      (UiState.mk [9] false "v" "c" "b" "w" "n" 300 200 [])).1 h
  · intro h
    exact (updateFwhmData_frame_effect (FwhmData.mk (some 2) (some []))
      (UiState.mk [9] true "v" "c" "b" "w" "n" 300 200 [])).2.1 h

lemma populateDropdown_foldl (cur : String) :
    ∀ (choices : List String) (acc : List SelectOption),
      choices.foldl
        (fun opts choice =>
          let opt : SelectOption :=
            { value := choice, textContent := choice, selected := false }
          let opt := if choice = cur then
              { opt with selected := true } else opt
          opts ++ [opt]) acc =
        acc ++ choices.map (fun c =>
          SelectOption.mk c c (decide (c = cur))) := by
  intro choices
  induction choices with
  | nil => intro acc; simp
  | cons c cs ih =>
      intro acc
      rw [List.foldl_cons, ih, List.map_cons]
      by_cases hc : c = cur <;> simp [hc, List.append_assoc]

/-- C10: after `populateDropdown`, the option list is exactly one option
per element of `configData.Choices`, in order, each with `value` and
`textContent` equal to the choice; all prior options are removed; an option
is selected exactly when its choice equals `configData.Current`, so if
`Current` matches no choice, no option is explicitly selected. -/
theorem populateDropdown_replaces_options (dropdown : List SelectOption)
    (configData : DropdownConfig) :
    populateDropdown dropdown configData =
      configData.Choices.map (fun c =>
        SelectOption.mk c c (decide (c = configData.Current))) ∧
    (populateDropdown dropdown configData).length =
      configData.Choices.length ∧
    (∀ o ∈ populateDropdown dropdown configData,
      (o.selected = true ↔ o.value = configData.Current)) ∧
    (configData.Current ∉ configData.Choices →
      ∀ o ∈ populateDropdown dropdown configData, o.selected = false) := by
  have hmain : populateDropdown dropdown configData =
      configData.Choices.map (fun c =>
        SelectOption.mk c c (decide (c = configData.Current))) := by
    rw [populateDropdown,
      populateDropdown_foldl configData.Current configData.Choices []]
    simp
  refine ⟨hmain, ?_, ?_, ?_⟩
  · rw [hmain, List.length_map]
  · intro o ho
    rw [hmain, List.mem_map] at ho
    obtain ⟨c, _, rfl⟩ := ho
    simp
  · intro hcur o ho
    rw [hmain, List.mem_map] at ho
    obtain ⟨c, hc, rfl⟩ := ho
    simp only [decide_eq_false_iff_not]
    intro he
    exact hcur (he ▸ hc)

/-- Closed instance of C10: `Choices = ["a", "b"]`, `Current = "b"`,
starting from a dropdown that already holds an option. -/
theorem populateDropdown_replaces_options_witness :
    populateDropdown [SelectOption.mk "old" "old" true]
        (DropdownConfig.mk ["a", "b"] "b") =
      [SelectOption.mk "a" "a" false, SelectOption.mk "b" "b" true] ∧
    (∀ o ∈ populateDropdown [SelectOption.mk "old" "old" true]
        (DropdownConfig.mk ["a", "b"] "b"),
      (o.selected = true ↔ o.value = "b")) := by
  have h := populateDropdown_replaces_options
    [SelectOption.mk "old" "old" true] (DropdownConfig.mk ["a", "b"] "b")
  refine ⟨?_, h.2.2.1⟩
  rw [h.1]
  decide
